import Mathlib

/-!
Shallow embedding of the vault approval program
(src/contracts/vault/vault.py) and proofs of its specified properties.

The PyTeal program is a function of the incoming transaction, the ledger
environment (addresses, timestamp, minimum fee, the vault's external asset
holdings) and the application's global/local key-value stores.  We embed it
as a pure Lean function from `(Env, VaultState, Txn)` to an
`EvalResult`: an approve/reject decision, the post-state, and the list of
synthesized inner transactions.  A TEAL runtime error (failed `Assert`,
out-of-range array access, `Btoi` on more than 8 bytes) rejects the
transaction with no state change, exactly like an explicit `Reject`, so
every failure path is modelled as `reject st`, which returns the input
state untouched.
-/

namespace Vault

/-- Byte strings (TEAL bytes values) are modelled as Lean strings; each
character stands for one byte. -/
abbrev Bytes := String

/-- Ledger account addresses. -/
abbrev AccountId := String

/-- Big-endian interpretation of a byte string as an unsigned integer
(TEAL `Btoi`).  TEAL errors on inputs longer than 8 bytes; approval
conditions below carry the corresponding length bound because that error
rejects the transaction. -/
def btoi (s : Bytes) : Nat :=
  s.data.foldl (fun a c => a * 256 + c.toNat) 0

/-- Transaction type (TEAL `Txn.type_enum`). -/
inductive TxnType where
  | applicationCall
  | assetTransfer
  | payment
  deriving DecidableEq

/-- On-completion action of an application call (TEAL `Txn.on_completion`). -/
inductive OnComplete where
  | noOp
  | optIn
  | closeOut
  | clearState
  | updateApplication
  | deleteApplication
  deriving DecidableEq

/-- Incoming transaction fields consumed by the program. -/
structure Txn where
  applicationId : Nat
  onCompletion : OnComplete
  typeEnum : TxnType
  sender : AccountId
  fee : Nat
  groupSize : Nat
  groupIndex : Nat
  rekeyTo : AccountId
  assetCloseTo : AccountId
  assetReceiver : AccountId
  xferAsset : Nat
  assetAmount : Nat
  assets : List Nat
  applicationArgs : List Bytes

/-- Ledger environment: the `Global.*` accessors and the vault's asset
holdings on the external ledger (`AssetHolding.balance` of the
application address: `none` when the vault is not opted into the asset). -/
structure Env where
  zeroAddress : AccountId
  appAddress : AccountId
  appId : Nat
  minTxnFee : Nat
  latestTimestamp : Nat
  holding : Nat → Option Nat

/-- Global vault state, written once by creation.  The source also
declares the keys `pos_asset` and `rwd_asset` but never writes or reads
them, so they carry no state. -/
structure GlobalState where
  creator : AccountId
  city : Bytes
  maxThreshold : Nat
  minThreshold : Nat
  vaultAsset : Nat
  creationTime : Nat
  deriving DecidableEq

/-- Per-account local state, created by the account opt-in. -/
structure LocalState where
  depositBalance : Nat
  depositTimestamp : Nat
  deriving DecidableEq

/-- Application state: the global store (absent before creation) and the
local store of every account (`none` when the account is not opted in). -/
structure VaultState where
  global : Option GlobalState
  locals : AccountId → Option LocalState

/-- TEAL `App.globalGet(creator)`; an unset key reads as the empty bytes. -/
def getCreator (st : VaultState) : AccountId :=
  match st.global with
  | some g => g.creator
  | none => ""

/-- TEAL `App.globalGet(vault_asset)`; an unset key reads as 0. -/
def getVaultAsset (st : VaultState) : Nat :=
  match st.global with
  | some g => g.vaultAsset
  | none => 0

/-- TEAL `App.optedIn(a, current_application_id)`. -/
def optedIn (st : VaultState) (a : AccountId) : Bool :=
  (st.locals a).isSome

/-- TEAL `App.localGet(a, deposit_balance)`. -/
def localBalance (st : VaultState) (a : AccountId) : Nat :=
  match st.locals a with
  | some l => l.depositBalance
  | none => 0

/-- TEAL `App.localGet(a, deposit_timestamp)`. -/
def localTimestamp (st : VaultState) (a : AccountId) : Nat :=
  match st.locals a with
  | some l => l.depositTimestamp
  | none => 0

/-- Overwrite account a's local state (TEAL `App.localPut`). -/
def setLocal (st : VaultState) (a : AccountId) (l : LocalState) : VaultState :=
  ⟨st.global, fun x => if x = a then some l else st.locals x⟩

/-- A synthesized inner transaction (TEAL `InnerTxnBuilder` fields). -/
structure InnerTxn where
  typeEnum : TxnType
  assetReceiver : AccountId
  assetAmount : Nat
  fee : Nat
  xferAsset : Nat
  deriving DecidableEq

/-- Result of one invocation: the approve/reject decision, the resulting
application state, and the synthesized inner transactions. -/
structure EvalResult where
  approved : Bool
  state : VaultState
  inner : List InnerTxn

/-- Rejection (explicit `Reject`/`Err` or any TEAL runtime error): the
whole invocation aborts with no state change and no inner transaction. -/
def reject (st : VaultState) : EvalResult :=
  ⟨false, st, []⟩

/-- Operation tag dispatched to the contract asset opt-in. -/
def op_contract_opt_in_vault_asset : Bytes := "contract_opt_in_vault_asset"

/-- Operation tag dispatched to the account opt-in. -/
def op_usr_opt_in : Bytes := "usr_opt_in"

/-- Operation tag dispatched to the deposit handler. -/
def op_usr_deposit : Bytes := "usr_deposit"

/-- Operation tag dispatched to the withdrawal handler. -/
def op_usr_withdrawal : Bytes := "usr_withdrawal"

/-- Subroutine contract_opt_in_asset (vault.py lines 40 to 72): opts the
vault into `assetId` through a synthesized 0-amount self transfer.
`AssetHolding.balance` is queried at asset index 0, i.e. on
`tx.assets[0]`; accessing an empty assets array is a runtime error,
covered here by the length-1 conjunct. -/
def contract_opt_in_asset (env : Env) (st : VaultState) (tx : Txn)
    (assetId : Nat) : EvalResult :=
  if tx.typeEnum = TxnType.applicationCall
      ∧ tx.groupSize = 1
      ∧ tx.groupIndex = 0
      ∧ tx.rekeyTo = env.zeroAddress
      ∧ tx.assets.length = 1
      ∧ tx.assets.getD 0 0 = assetId
      ∧ env.holding (tx.assets.getD 0 0) = none
      ∧ tx.sender = getCreator st
      ∧ env.minTxnFee * 2 ≤ tx.fee then
    ⟨true, st, [⟨TxnType.assetTransfer, env.appAddress, 0, 0, assetId⟩]⟩
  else
    reject st

/-- Subroutine usr_opt_in (vault.py lines 81 to 100): registers the
sender with zero balance and zero timestamp. -/
def usr_opt_in (env : Env) (st : VaultState) (tx : Txn) : EvalResult :=
  if tx.typeEnum = TxnType.applicationCall
      ∧ tx.groupSize = 1
      ∧ tx.groupIndex = 0
      ∧ tx.rekeyTo = env.zeroAddress
      ∧ optedIn st tx.sender = false
      ∧ env.minTxnFee ≤ tx.fee then
    ⟨true, setLocal st tx.sender ⟨0, 0⟩, []⟩
  else
    reject st

/-- Subroutine usr_deposit (vault.py lines 117 to 145): credits the
sender's balance by the transferred amount and overwrites the deposit
timestamp with the current ledger time. -/
def usr_deposit (env : Env) (st : VaultState) (tx : Txn) : EvalResult :=
  if tx.typeEnum = TxnType.assetTransfer
      ∧ tx.groupSize = 1
      ∧ tx.groupIndex = 0
      ∧ tx.rekeyTo = env.zeroAddress
      ∧ tx.assetCloseTo = env.zeroAddress
      ∧ optedIn st tx.sender = true
      ∧ tx.assetReceiver = env.appAddress
      ∧ tx.xferAsset = getVaultAsset st
      ∧ 0 < tx.assetAmount
      ∧ env.minTxnFee ≤ tx.fee then
    ⟨true,
      setLocal st tx.sender
        ⟨localBalance st tx.sender + tx.assetAmount, env.latestTimestamp⟩,
      []⟩
  else
    reject st

/-- Subroutine usr_withdrawal (vault.py lines 164 to 200): debits the
sender's balance by `btoi args[1]` and synthesizes one transfer of that
amount of `tx.assets[0]` to the sender with fee 0.  The deposit
timestamp key is not written, so it keeps its previous value. -/
def usr_withdrawal (env : Env) (st : VaultState) (tx : Txn) : EvalResult :=
  if tx.typeEnum = TxnType.applicationCall
      ∧ tx.groupSize = 1
      ∧ tx.groupIndex = 0
      ∧ tx.rekeyTo = env.zeroAddress
      ∧ tx.applicationArgs.length = 2
      ∧ tx.assets.length = 1
      ∧ optedIn st tx.sender = true
      ∧ tx.assets.getD 0 0 = getVaultAsset st
      ∧ (tx.applicationArgs.getD 1 "").length ≤ 8
      ∧ 0 < btoi (tx.applicationArgs.getD 1 "")
      ∧ btoi (tx.applicationArgs.getD 1 "") ≤ localBalance st tx.sender
      ∧ env.minTxnFee * 2 ≤ tx.fee then
    ⟨true,
      setLocal st tx.sender
        ⟨localBalance st tx.sender - btoi (tx.applicationArgs.getD 1 ""),
          localTimestamp st tx.sender⟩,
      [⟨TxnType.assetTransfer, tx.sender,
          btoi (tx.applicationArgs.getD 1 ""), 0, tx.assets.getD 0 0⟩]⟩
  else
    reject st

/-- Creation handler (vault.py lines 208 to 222): initializes all global
fields.  `Btoi` of the two threshold arguments errors on more than 8
bytes, hence the two length bounds in the approval condition. -/
def handle_creation (env : Env) (st : VaultState) (tx : Txn) : EvalResult :=
  if tx.applicationArgs.length = 3
      ∧ tx.assets.length = 1
      ∧ (tx.applicationArgs.getD 1 "").length ≤ 8
      ∧ (tx.applicationArgs.getD 2 "").length ≤ 8 then
    ⟨true,
      ⟨some ⟨tx.sender,
          tx.applicationArgs.getD 0 "",
          btoi (tx.applicationArgs.getD 1 ""),
          btoi (tx.applicationArgs.getD 2 ""),
          tx.assets.getD 0 0,
          env.latestTimestamp⟩,
        st.locals⟩,
      []⟩
  else
    reject st

/-- Opt-in dispatcher (vault.py lines 224 to 231): routes on the first
operation argument; a `Cond` with no matching branch is a runtime error
(rejection), and reading `args[0]` of an empty argument list likewise. -/
def handle_optin (env : Env) (st : VaultState) (tx : Txn) : EvalResult :=
  if tx.applicationArgs.getD 0 "" = op_contract_opt_in_vault_asset then
    contract_opt_in_asset env st tx (getVaultAsset st)
  else if tx.applicationArgs.getD 0 "" = op_usr_opt_in then
    usr_opt_in env st tx
  else
    reject st

/-- NoOp dispatcher (vault.py lines 233 to 239): routes on the first
operation argument. -/
def handle_noop (env : Env) (st : VaultState) (tx : Txn) : EvalResult :=
  if tx.applicationArgs.getD 0 "" = op_usr_deposit then
    usr_deposit env st tx
  else if tx.applicationArgs.getD 0 "" = op_usr_withdrawal then
    usr_withdrawal env st tx
  else
    reject st

/-- The approval program (vault.py lines 247 to 254): a creation call
(application id 0) goes to the creation handler; otherwise dispatch is
on the on-completion action, with close-out, update and delete mapped to
`Err`.  A clear-state transaction never reaches the approval program; a
`Cond` fall-through is a runtime error, i.e. rejection. -/
def approval_program (env : Env) (st : VaultState) (tx : Txn) : EvalResult :=
  if tx.applicationId = 0 then
    handle_creation env st tx
  else if tx.onCompletion = OnComplete.optIn then
    handle_optin env st tx
  else if tx.onCompletion = OnComplete.closeOut then
    reject st
  else if tx.onCompletion = OnComplete.updateApplication then
    reject st
  else if tx.onCompletion = OnComplete.deleteApplication then
    reject st
  else if tx.onCompletion = OnComplete.noOp then
    handle_noop env st tx
  else
    reject st

/-- The clear-state program (vault.py lines 258 to 261): `Return(Int(1))`,
approving every input unconditionally. -/
def clear_state_program (_tx : Txn) : Bool :=
  true

/-! ## Dispatch lemmas -/

lemma approval_program_noop (env : Env) (st : VaultState) (tx : Txn)
    (hid : tx.applicationId ≠ 0) (hoc : tx.onCompletion = OnComplete.noOp) :
    approval_program env st tx = handle_noop env st tx := by
  unfold approval_program
  rw [if_neg hid, hoc]
  simp

lemma approval_program_optin (env : Env) (st : VaultState) (tx : Txn)
    (hid : tx.applicationId ≠ 0) (hoc : tx.onCompletion = OnComplete.optIn) :
    approval_program env st tx = handle_optin env st tx := by
  unfold approval_program
  rw [if_neg hid, hoc]
  simp

/-! ## Concrete inputs used by the witnesses -/

/-- A ledger environment for concrete runs: the vault holds no asset. -/
def envW : Env := ⟨"ZERO", "VAULT", 1, 1000, 42, fun _ => none⟩

/-- A created vault tracking asset 7. -/
def gW : GlobalState := ⟨"carol", "NYC", 1000, 10, 7, 5⟩

/-- A state where alice is opted in with balance 500 and timestamp 3. -/
def stW : VaultState :=
  ⟨some gW, fun a => if a = "alice" then some ⟨500, 3⟩ else none⟩

/-- A deposit of 200 of asset 7 by alice. -/
def txDepW : Txn :=
  ⟨1, OnComplete.noOp, TxnType.assetTransfer, "alice", 1000, 1, 0,
    "ZERO", "ZERO", "VAULT", 7, 200, [], ["usr_deposit"]⟩

/-! ## C1: deposit correctness -/

/-- C1: a transaction dispatched to the deposit operation whose sender is
opted in, that is an asset transfer of the vault asset to the vault's own
address with positive amount, singleton group, no rekey, empty close-to,
and fee at least the minimum fee, is approved, increments the sender's
depositBalance by the transferred amount, and overwrites the sender's
depositTimestamp with the current ledger time. -/
theorem deposit_correct (env : Env) (st : VaultState) (tx : Txn)
    (hid : tx.applicationId ≠ 0)
    (hoc : tx.onCompletion = OnComplete.noOp)
    (htag : tx.applicationArgs.getD 0 "" = op_usr_deposit)
    (hty : tx.typeEnum = TxnType.assetTransfer)
    (hgs : tx.groupSize = 1)
    (hgi : tx.groupIndex = 0)
    (hrk : tx.rekeyTo = env.zeroAddress)
    (hct : tx.assetCloseTo = env.zeroAddress)
    (hopt : optedIn st tx.sender = true)
    (hrcv : tx.assetReceiver = env.appAddress)
    (hasset : tx.xferAsset = getVaultAsset st)
    (hamt : 0 < tx.assetAmount)
    (hfee : env.minTxnFee ≤ tx.fee) :
    (approval_program env st tx).approved = true
    ∧ (approval_program env st tx).state.locals tx.sender =
        some ⟨localBalance st tx.sender + tx.assetAmount, env.latestTimestamp⟩ := by
  rw [approval_program_noop env st tx hid hoc]
  unfold handle_noop
  rw [if_pos htag]
  unfold usr_deposit
  rw [if_pos ⟨hty, hgs, hgi, hrk, hct, hopt, hrcv, hasset, hamt, hfee⟩]
  exact ⟨rfl, by simp [setLocal]⟩

/-- Witness for C1 at a concrete input: alice's balance goes from 500 to
700 and her timestamp is overwritten with the ledger time 42. -/
theorem deposit_correct_witness :
    (approval_program envW stW txDepW).approved = true
    ∧ (approval_program envW stW txDepW).state.locals txDepW.sender =
        some ⟨localBalance stW txDepW.sender + txDepW.assetAmount,
          envW.latestTimestamp⟩ :=
  deposit_correct envW stW txDepW (by decide) (by decide) (by decide)
    (by decide) (by decide) (by decide) (by decide) (by decide) (by decide)
    (by decide) (by decide) (by decide) (by decide)

/-! ## C3: withdrawal correctness -/

/-- C3: a direct application call dispatched to the withdrawal operation
with exactly two operation arguments, exactly one referenced asset equal
to the vault asset, singleton group, no rekey, an opted-in sender, a
withdrawal amount a with 0 < a and a at most the sender's balance, and
fee at least twice the minimum fee, is approved, debits the sender's
depositBalance by a (timestamp untouched), and synthesizes exactly one
asset transfer of a of the vault asset to the sender with fee 0. -/
theorem withdrawal_correct (env : Env) (st : VaultState) (tx : Txn)
    (hid : tx.applicationId ≠ 0)
    (hoc : tx.onCompletion = OnComplete.noOp)
    (htag : tx.applicationArgs.getD 0 "" = op_usr_withdrawal)
    (hty : tx.typeEnum = TxnType.applicationCall)
    (hgs : tx.groupSize = 1)
    (hgi : tx.groupIndex = 0)
    (hrk : tx.rekeyTo = env.zeroAddress)
    (hargs : tx.applicationArgs.length = 2)
    (hassets : tx.assets = [getVaultAsset st])
    (hopt : optedIn st tx.sender = true)
    (hlen : (tx.applicationArgs.getD 1 "").length ≤ 8)
    (hamt : 0 < btoi (tx.applicationArgs.getD 1 ""))
    (hbal : btoi (tx.applicationArgs.getD 1 "") ≤ localBalance st tx.sender)
    (hfee : env.minTxnFee * 2 ≤ tx.fee) :
    (approval_program env st tx).approved = true
    ∧ (approval_program env st tx).state.locals tx.sender =
        some ⟨localBalance st tx.sender - btoi (tx.applicationArgs.getD 1 ""),
          localTimestamp st tx.sender⟩
    ∧ (approval_program env st tx).inner =
        [⟨TxnType.assetTransfer, tx.sender,
          btoi (tx.applicationArgs.getD 1 ""), 0, getVaultAsset st⟩] := by
  rw [approval_program_noop env st tx hid hoc]
  unfold handle_noop
  rw [if_neg (by rw [htag]; decide), if_pos htag]
  unfold usr_withdrawal
  rw [if_pos ⟨hty, hgs, hgi, hrk, hargs, by rw [hassets]; rfl, hopt,
    by rw [hassets]; rfl, hlen, hamt, hbal, hfee⟩]
  refine ⟨rfl, by simp [setLocal], ?_⟩
  rw [hassets]
  rfl

/-- A withdrawal of 100 (one byte, 0x64) of asset 7 by alice. -/
def txWdW : Txn :=
  ⟨1, OnComplete.noOp, TxnType.applicationCall, "alice", 2000, 1, 0,
    "ZERO", "", "", 0, 0, [7], ["usr_withdrawal", "d"]⟩

/-- Witness for C3 at a concrete input: alice withdraws 100 out of 500;
her balance drops to 400, her timestamp stays 3, and one transfer of 100
of asset 7 to alice with fee 0 is synthesized. -/
theorem withdrawal_correct_witness :
    (approval_program envW stW txWdW).approved = true
    ∧ (approval_program envW stW txWdW).state.locals txWdW.sender =
        some ⟨localBalance stW txWdW.sender - btoi (txWdW.applicationArgs.getD 1 ""),
          localTimestamp stW txWdW.sender⟩
    ∧ (approval_program envW stW txWdW).inner =
        [⟨TxnType.assetTransfer, txWdW.sender,
          btoi (txWdW.applicationArgs.getD 1 ""), 0, getVaultAsset stW⟩] :=
  withdrawal_correct envW stW txWdW (by decide) (by decide) (by decide)
    (by decide) (by decide) (by decide) (by decide) (by decide) (by decide)
    (by decide) (by decide) (by decide) (by decide) (by decide)

/-! ## C6: account opt-in correctness -/

/-- C6: a transaction dispatched to the account opt-in operation that is
a direct call, singleton, with no rekey, a sender not yet opted in, and
fee at least the minimum fee, is approved and creates the sender's local
state with depositBalance 0 and depositTimestamp 0; a sender already
opted in is rejected. -/
theorem usr_opt_in_correct (env : Env) (st : VaultState) (tx : Txn)
    (hid : tx.applicationId ≠ 0)
    (hoc : tx.onCompletion = OnComplete.optIn)
    (htag : tx.applicationArgs.getD 0 "" = op_usr_opt_in) :
    (tx.typeEnum = TxnType.applicationCall → tx.groupSize = 1 →
      tx.groupIndex = 0 → tx.rekeyTo = env.zeroAddress →
      st.locals tx.sender = none → env.minTxnFee ≤ tx.fee →
      (approval_program env st tx).approved = true
      ∧ (approval_program env st tx).state.locals tx.sender = some ⟨0, 0⟩)
    ∧ ((st.locals tx.sender).isSome = true →
      (approval_program env st tx).approved = false) := by
  rw [approval_program_optin env st tx hid hoc]
  unfold handle_optin
  rw [if_neg (by rw [htag]; decide), if_pos htag]
  unfold usr_opt_in
  constructor
  · intro hty hgs hgi hrk hnone hfee
    rw [if_pos ⟨hty, hgs, hgi, hrk, by simp [optedIn, hnone], hfee⟩]
    exact ⟨rfl, by simp [setLocal]⟩
  · intro hsome
    rw [if_neg]
    · rfl
    · intro hc
      simp [optedIn, hsome] at hc

/-- A fresh state where nobody is opted in yet. -/
def stEmptyW : VaultState := ⟨some gW, fun _ => none⟩

/-- An account opt-in call by bob. -/
def txOptUW : Txn :=
  ⟨1, OnComplete.optIn, TxnType.applicationCall, "bob", 1000, 1, 0,
    "ZERO", "", "", 0, 0, [], ["usr_opt_in"]⟩

/-- Witness for C6 at a concrete input: bob opts into an empty vault. -/
theorem usr_opt_in_correct_witness :
    (txOptUW.typeEnum = TxnType.applicationCall → txOptUW.groupSize = 1 →
      txOptUW.groupIndex = 0 → txOptUW.rekeyTo = envW.zeroAddress →
      stEmptyW.locals txOptUW.sender = none → envW.minTxnFee ≤ txOptUW.fee →
      (approval_program envW stEmptyW txOptUW).approved = true
      ∧ (approval_program envW stEmptyW txOptUW).state.locals txOptUW.sender =
          some ⟨0, 0⟩)
    ∧ ((stEmptyW.locals txOptUW.sender).isSome = true →
      (approval_program envW stEmptyW txOptUW).approved = false) :=
  usr_opt_in_correct envW stEmptyW txOptUW (by decide) (by decide) (by decide)

/-! ## C5: contract asset opt-in correctness -/

lemma list_single_of_len_getD (l : List Nat) (x : Nat)
    (hlen : l.length = 1) (hget : l.getD 0 0 = x) : l = [x] := by
  cases l with
  | nil => simp at hlen
  | cons a t =>
      cases t with
      | nil => simp_all [List.getD]
      | cons b t2 => simp at hlen

/-- C5: a transaction dispatched to the contract asset opt-in is approved
iff it is a direct call, singleton, with no rekey, referencing exactly one
asset equal to the vault asset, the vault holds no balance of that asset
on the external ledger, the sender is the creator, and the fee is at
least twice the minimum fee; on approval it synthesizes exactly one
0-amount transfer of the vault asset from the vault to itself with fee 0
and changes no global or local state. -/
theorem asset_opt_in_correct (env : Env) (st : VaultState) (tx : Txn)
    (hid : tx.applicationId ≠ 0)
    (hoc : tx.onCompletion = OnComplete.optIn)
    (htag : tx.applicationArgs.getD 0 "" = op_contract_opt_in_vault_asset) :
    ((approval_program env st tx).approved = true ↔
      (tx.typeEnum = TxnType.applicationCall ∧ tx.groupSize = 1
        ∧ tx.groupIndex = 0 ∧ tx.rekeyTo = env.zeroAddress
        ∧ tx.assets = [getVaultAsset st]
        ∧ env.holding (getVaultAsset st) = none
        ∧ tx.sender = getCreator st
        ∧ env.minTxnFee * 2 ≤ tx.fee))
    ∧ ((approval_program env st tx).approved = true →
      (approval_program env st tx).inner =
        [⟨TxnType.assetTransfer, env.appAddress, 0, 0, getVaultAsset st⟩]
      ∧ (approval_program env st tx).state = st) := by
  rw [approval_program_optin env st tx hid hoc]
  unfold handle_optin
  rw [if_pos htag]
  unfold contract_opt_in_asset
  split_ifs with h
  · obtain ⟨h1, h2, h3, h4, h5, h6, h7, h8, h9⟩ := h
    have hl : tx.assets = [getVaultAsset st] := list_single_of_len_getD _ _ h5 h6
    rw [h6] at h7
    refine ⟨?_, fun _ => ⟨rfl, rfl⟩⟩
    simp only [true_iff]
    exact ⟨h1, h2, h3, h4, hl, h7, h8, h9⟩
  · refine ⟨?_, fun hc => absurd hc (by simp [reject])⟩
    simp only [reject]
    constructor
    · intro hc
      exact absurd hc (by simp)
    · rintro ⟨h1, h2, h3, h4, h5, h6, h7, h8⟩
      exact absurd ⟨h1, h2, h3, h4, by rw [h5]; rfl, by rw [h5]; rfl,
        by rw [h5]; simpa using h6, h7, h8⟩ h

/-- An asset opt-in call by the creator carol for asset 7. -/
def txOptAW : Txn :=
  ⟨1, OnComplete.optIn, TxnType.applicationCall, "carol", 2000, 1, 0,
    "ZERO", "", "", 0, 0, [7], ["contract_opt_in_vault_asset"]⟩

/-- Witness for C5 at a concrete input: carol opts the vault into asset 7
while the vault holds nothing of it. -/
theorem asset_opt_in_correct_witness :
    (((approval_program envW stW txOptAW).approved = true ↔
      (txOptAW.typeEnum = TxnType.applicationCall ∧ txOptAW.groupSize = 1
        ∧ txOptAW.groupIndex = 0 ∧ txOptAW.rekeyTo = envW.zeroAddress
        ∧ txOptAW.assets = [getVaultAsset stW]
        ∧ envW.holding (getVaultAsset stW) = none
        ∧ txOptAW.sender = getCreator stW
        ∧ envW.minTxnFee * 2 ≤ txOptAW.fee))
    ∧ ((approval_program envW stW txOptAW).approved = true →
      (approval_program envW stW txOptAW).inner =
        [⟨TxnType.assetTransfer, envW.appAddress, 0, 0, getVaultAsset stW⟩]
      ∧ (approval_program envW stW txOptAW).state = stW)) :=
  asset_opt_in_correct envW stW txOptAW (by decide) (by decide) (by decide)

/-! ## C7: unsupported operations are rejected -/

/-- C7: every close-out, update-application, or delete-application
transaction (the non-creation categories AccountDeregistration,
ProgramUpdate, ProgramRemoval) is rejected, with no state change and no
inner transaction, regardless of sender, arguments, fee, or any other
field. -/
theorem unsupported_rejected (env : Env) (st : VaultState) (tx : Txn)
    (hid : tx.applicationId ≠ 0)
    (hoc : tx.onCompletion = OnComplete.closeOut
      ∨ tx.onCompletion = OnComplete.updateApplication
      ∨ tx.onCompletion = OnComplete.deleteApplication) :
    approval_program env st tx = reject st := by
  unfold approval_program
  rw [if_neg hid]
  rcases hoc with h | h | h <;> rw [h] <;> simp

/-- A close-out attempt by alice. -/
def txCloseW : Txn :=
  ⟨1, OnComplete.closeOut, TxnType.applicationCall, "alice", 1000, 1, 0,
    "ZERO", "", "", 0, 0, [], []⟩

/-- Witness for C7 at a concrete input: a close-out by alice is rejected
with no effect. -/
theorem unsupported_rejected_witness :
    approval_program envW stW txCloseW = reject stW :=
  unsupported_rejected envW stW txCloseW (by decide) (Or.inl (by decide))

/-! ## C4: rejection has no effect -/

lemma handle_creation_cases (env : Env) (st : VaultState) (tx : Txn) :
    handle_creation env st tx = reject st
    ∨ (handle_creation env st tx).approved = true := by
  unfold handle_creation
  split_ifs
  · exact Or.inr rfl
  · exact Or.inl rfl

lemma contract_opt_in_asset_cases (env : Env) (st : VaultState) (tx : Txn)
    (aid : Nat) :
    contract_opt_in_asset env st tx aid = reject st
    ∨ (contract_opt_in_asset env st tx aid).approved = true := by
  unfold contract_opt_in_asset
  split_ifs
  · exact Or.inr rfl
  · exact Or.inl rfl

lemma usr_opt_in_cases (env : Env) (st : VaultState) (tx : Txn) :
    usr_opt_in env st tx = reject st
    ∨ (usr_opt_in env st tx).approved = true := by
  unfold usr_opt_in
  split_ifs
  · exact Or.inr rfl
  · exact Or.inl rfl

lemma usr_deposit_cases (env : Env) (st : VaultState) (tx : Txn) :
    usr_deposit env st tx = reject st
    ∨ (usr_deposit env st tx).approved = true := by
  unfold usr_deposit
  split_ifs
  · exact Or.inr rfl
  · exact Or.inl rfl

lemma usr_withdrawal_cases (env : Env) (st : VaultState) (tx : Txn) :
    usr_withdrawal env st tx = reject st
    ∨ (usr_withdrawal env st tx).approved = true := by
  unfold usr_withdrawal
  split_ifs
  · exact Or.inr rfl
  · exact Or.inl rfl

lemma handle_optin_cases (env : Env) (st : VaultState) (tx : Txn) :
    handle_optin env st tx = reject st
    ∨ (handle_optin env st tx).approved = true := by
  unfold handle_optin
  split_ifs
  · exact contract_opt_in_asset_cases env st tx (getVaultAsset st)
  · exact usr_opt_in_cases env st tx
  · exact Or.inl rfl

lemma handle_noop_cases (env : Env) (st : VaultState) (tx : Txn) :
    handle_noop env st tx = reject st
    ∨ (handle_noop env st tx).approved = true := by
  unfold handle_noop
  split_ifs
  · exact usr_deposit_cases env st tx
  · exact usr_withdrawal_cases env st tx
  · exact Or.inl rfl

lemma eval_cases (env : Env) (st : VaultState) (tx : Txn) :
    approval_program env st tx = reject st
    ∨ (approval_program env st tx).approved = true := by
  unfold approval_program
  split_ifs <;> first
    | exact handle_creation_cases env st tx
    | exact handle_optin_cases env st tx
    | exact handle_noop_cases env st tx
    | exact Or.inl rfl

/-- C4: whenever the program rejects, the global state and every
account's local state are exactly as before and no inner transaction is
emitted; in particular a withdrawal request of 0 or of more than the
caller's depositBalance is rejected. -/
theorem reject_frame (env : Env) (st : VaultState) (tx : Txn) :
    ((approval_program env st tx).approved = false →
      (approval_program env st tx).state = st
      ∧ (approval_program env st tx).inner = [])
    ∧ (tx.applicationId ≠ 0 → tx.onCompletion = OnComplete.noOp →
      tx.applicationArgs.getD 0 "" = op_usr_withdrawal →
      (btoi (tx.applicationArgs.getD 1 "") = 0
        ∨ localBalance st tx.sender < btoi (tx.applicationArgs.getD 1 "")) →
      (approval_program env st tx).approved = false) := by
  constructor
  · intro hrej
    rcases eval_cases env st tx with h | h
    · rw [h]
      exact ⟨rfl, rfl⟩
    · rw [h] at hrej
      exact absurd hrej (by simp)
  · intro hid hoc htag hbad
    rw [approval_program_noop env st tx hid hoc]
    unfold handle_noop
    rw [if_neg (by rw [htag]; decide), if_pos htag]
    unfold usr_withdrawal
    rw [if_neg]
    · rfl
    · intro hc
      obtain ⟨-, -, -, -, -, -, -, -, -, h1, h2, -⟩ := hc
      rcases hbad with hb | hb <;> omega

/-- A withdrawal request of 600 (0x02 0x58) by alice, whose balance is
only 500. -/
def txOverW : Txn :=
  ⟨1, OnComplete.noOp, TxnType.applicationCall, "alice", 2000, 1, 0,
    "ZERO", "", "", 0, 0, [7], ["usr_withdrawal", "\x02X"]⟩

/-- Witness for C4 at a concrete input: alice's over-withdrawal of 600 is
rejected and leaves the state untouched with no inner transaction. -/
theorem reject_frame_witness :
    (approval_program envW stW txOverW).approved = false
    ∧ (approval_program envW stW txOverW).state = stW
    ∧ (approval_program envW stW txOverW).inner = [] := by
  have h := reject_frame envW stW txOverW
  have hrej := h.2 (by decide) (by decide) (by decide) (Or.inr (by decide))
  exact ⟨hrej, (h.1 hrej).1, (h.1 hrej).2⟩

/-! ## C8: timestamp and frame effects of deposit and withdrawal -/

/-- C8: every approved deposit overwrites the sender's depositTimestamp
with the current ledger time regardless of its previous value, and every
approved withdrawal leaves the sender's depositTimestamp, the global
state, and every other account's local state unchanged. -/
theorem timestamp_frame (env : Env) (st : VaultState) (tx : Txn)
    (hid : tx.applicationId ≠ 0)
    (hoc : tx.onCompletion = OnComplete.noOp) :
    (tx.applicationArgs.getD 0 "" = op_usr_deposit →
      (approval_program env st tx).approved = true →
      localTimestamp (approval_program env st tx).state tx.sender =
        env.latestTimestamp)
    ∧ (tx.applicationArgs.getD 0 "" = op_usr_withdrawal →
      (approval_program env st tx).approved = true →
      localTimestamp (approval_program env st tx).state tx.sender =
        localTimestamp st tx.sender
      ∧ (approval_program env st tx).state.global = st.global
      ∧ ∀ a, a ≠ tx.sender →
          (approval_program env st tx).state.locals a = st.locals a) := by
  rw [approval_program_noop env st tx hid hoc]
  unfold handle_noop
  constructor
  · intro htag happ
    rw [if_pos htag] at happ ⊢
    unfold usr_deposit at happ ⊢
    split_ifs at happ ⊢ with h
    · simp [setLocal, localTimestamp]
    · exact absurd happ (by simp [reject])
  · intro htag happ
    rw [if_neg (by rw [htag]; decide), if_pos htag] at happ ⊢
    unfold usr_withdrawal at happ ⊢
    split_ifs at happ ⊢ with h
    · refine ⟨by simp [setLocal, localTimestamp], rfl, ?_⟩
      intro a ha
      simp [setLocal, ha]
    · exact absurd happ (by simp [reject])

/-- Witness for C8 at a concrete input: alice's approved withdrawal keeps
her timestamp, the global state and every other local state. -/
theorem timestamp_frame_witness :
    (txWdW.applicationArgs.getD 0 "" = op_usr_deposit →
      (approval_program envW stW txWdW).approved = true →
      localTimestamp (approval_program envW stW txWdW).state txWdW.sender =
        envW.latestTimestamp)
    ∧ (txWdW.applicationArgs.getD 0 "" = op_usr_withdrawal →
      (approval_program envW stW txWdW).approved = true →
      localTimestamp (approval_program envW stW txWdW).state txWdW.sender =
        localTimestamp stW txWdW.sender
      ∧ (approval_program envW stW txWdW).state.global = stW.global
      ∧ ∀ a, a ≠ txWdW.sender →
          (approval_program envW stW txWdW).state.locals a = stW.locals a) :=
  timestamp_frame envW stW txWdW (by decide) (by decide)

/-! ## C9: the thresholds are never read after creation -/

lemma localBalance_congr (st₁ st₂ : VaultState) (hl : st₁.locals = st₂.locals)
    (a : AccountId) : localBalance st₁ a = localBalance st₂ a := by
  unfold localBalance
  rw [hl]

lemma optedIn_congr (st₁ st₂ : VaultState) (hl : st₁.locals = st₂.locals)
    (a : AccountId) : optedIn st₁ a = optedIn st₂ a := by
  unfold optedIn
  rw [hl]

lemma localTimestamp_congr (st₁ st₂ : VaultState) (hl : st₁.locals = st₂.locals)
    (a : AccountId) : localTimestamp st₁ a = localTimestamp st₂ a := by
  unfold localTimestamp
  rw [hl]

lemma contract_opt_in_asset_congr (env : Env) (tx : Txn)
    (st₁ st₂ : VaultState) (aid : Nat)
    (hcr : getCreator st₁ = getCreator st₂)
    (hl : st₁.locals = st₂.locals) :
    (contract_opt_in_asset env st₁ tx aid).approved =
        (contract_opt_in_asset env st₂ tx aid).approved
    ∧ (contract_opt_in_asset env st₁ tx aid).inner =
        (contract_opt_in_asset env st₂ tx aid).inner
    ∧ (contract_opt_in_asset env st₁ tx aid).state.locals =
        (contract_opt_in_asset env st₂ tx aid).state.locals
    ∧ (contract_opt_in_asset env st₁ tx aid).state.global = st₁.global
    ∧ (contract_opt_in_asset env st₂ tx aid).state.global = st₂.global := by
  unfold contract_opt_in_asset
  simp only [hcr]
  split_ifs <;> refine ⟨rfl, rfl, ?_, rfl, rfl⟩ <;> simp [reject, hl]

lemma usr_opt_in_congr (env : Env) (tx : Txn) (st₁ st₂ : VaultState)
    (hl : st₁.locals = st₂.locals) :
    (usr_opt_in env st₁ tx).approved = (usr_opt_in env st₂ tx).approved
    ∧ (usr_opt_in env st₁ tx).inner = (usr_opt_in env st₂ tx).inner
    ∧ (usr_opt_in env st₁ tx).state.locals = (usr_opt_in env st₂ tx).state.locals
    ∧ (usr_opt_in env st₁ tx).state.global = st₁.global
    ∧ (usr_opt_in env st₂ tx).state.global = st₂.global := by
  unfold usr_opt_in
  simp only [optedIn_congr st₁ st₂ hl]
  split_ifs <;> refine ⟨rfl, rfl, ?_, rfl, rfl⟩ <;> simp [reject, setLocal, hl]

lemma usr_deposit_congr (env : Env) (tx : Txn) (st₁ st₂ : VaultState)
    (hva : getVaultAsset st₁ = getVaultAsset st₂)
    (hl : st₁.locals = st₂.locals) :
    (usr_deposit env st₁ tx).approved = (usr_deposit env st₂ tx).approved
    ∧ (usr_deposit env st₁ tx).inner = (usr_deposit env st₂ tx).inner
    ∧ (usr_deposit env st₁ tx).state.locals = (usr_deposit env st₂ tx).state.locals
    ∧ (usr_deposit env st₁ tx).state.global = st₁.global
    ∧ (usr_deposit env st₂ tx).state.global = st₂.global := by
  unfold usr_deposit
  simp only [hva, optedIn_congr st₁ st₂ hl, localBalance_congr st₁ st₂ hl]
  split_ifs <;> refine ⟨rfl, rfl, ?_, rfl, rfl⟩ <;> simp [reject, setLocal, hl]

lemma usr_withdrawal_congr (env : Env) (tx : Txn) (st₁ st₂ : VaultState)
    (hva : getVaultAsset st₁ = getVaultAsset st₂)
    (hl : st₁.locals = st₂.locals) :
    (usr_withdrawal env st₁ tx).approved = (usr_withdrawal env st₂ tx).approved
    ∧ (usr_withdrawal env st₁ tx).inner = (usr_withdrawal env st₂ tx).inner
    ∧ (usr_withdrawal env st₁ tx).state.locals =
        (usr_withdrawal env st₂ tx).state.locals
    ∧ (usr_withdrawal env st₁ tx).state.global = st₁.global
    ∧ (usr_withdrawal env st₂ tx).state.global = st₂.global := by
  unfold usr_withdrawal
  simp only [hva, optedIn_congr st₁ st₂ hl, localBalance_congr st₁ st₂ hl,
    localTimestamp_congr st₁ st₂ hl]
  split_ifs <;> refine ⟨rfl, rfl, ?_, rfl, rfl⟩ <;> simp [reject, setLocal, hl]

lemma eval_congr (env : Env) (tx : Txn) (st₁ st₂ : VaultState)
    (hcr : getCreator st₁ = getCreator st₂)
    (hva : getVaultAsset st₁ = getVaultAsset st₂)
    (hl : st₁.locals = st₂.locals)
    (hid : tx.applicationId ≠ 0) :
    (approval_program env st₁ tx).approved = (approval_program env st₂ tx).approved
    ∧ (approval_program env st₁ tx).inner = (approval_program env st₂ tx).inner
    ∧ (approval_program env st₁ tx).state.locals =
        (approval_program env st₂ tx).state.locals
    ∧ (approval_program env st₁ tx).state.global = st₁.global
    ∧ (approval_program env st₂ tx).state.global = st₂.global := by
  unfold approval_program handle_optin handle_noop
  rw [if_neg hid, if_neg hid]
  simp only [hva]
  split_ifs <;> first
    | exact contract_opt_in_asset_congr env tx st₁ st₂ (getVaultAsset st₂) hcr hl
    | exact usr_opt_in_congr env tx st₁ st₂ hl
    | exact usr_deposit_congr env tx st₁ st₂ hva hl
    | exact usr_withdrawal_congr env tx st₁ st₂ hva hl
    | exact ⟨rfl, rfl, hl, rfl, rfl⟩

/-- C9: two post-creation states that agree everywhere except possibly in
the stored maxThreshold and minThreshold produce, for every non-creation
transaction, the same decision, the same inner transactions, and the same
local stores, and neither run touches its global state: no handler reads
the thresholds. -/
theorem threshold_noninterference (env : Env) (tx : Txn)
    (st₁ st₂ : VaultState) (g₁ g₂ : GlobalState)
    (hg₁ : st₁.global = some g₁) (hg₂ : st₂.global = some g₂)
    (hcreator : g₁.creator = g₂.creator)
    (_hcity : g₁.city = g₂.city)
    (hasset : g₁.vaultAsset = g₂.vaultAsset)
    (_htime : g₁.creationTime = g₂.creationTime)
    (hl : st₁.locals = st₂.locals)
    (hid : tx.applicationId ≠ 0) :
    (approval_program env st₁ tx).approved = (approval_program env st₂ tx).approved
    ∧ (approval_program env st₁ tx).inner = (approval_program env st₂ tx).inner
    ∧ (approval_program env st₁ tx).state.locals =
        (approval_program env st₂ tx).state.locals
    ∧ (approval_program env st₁ tx).state.global = st₁.global
    ∧ (approval_program env st₂ tx).state.global = st₂.global := by
  apply eval_congr env tx st₁ st₂ ?_ ?_ hl hid
  · unfold getCreator
    rw [hg₁, hg₂]
    exact hcreator
  · unfold getVaultAsset
    rw [hg₁, hg₂]
    exact hasset

/-- The same vault configuration with different thresholds. -/
def gW2 : GlobalState := ⟨"carol", "NYC", 77, 3, 7, 5⟩

/-- The state stW with only the thresholds changed. -/
def stW2 : VaultState := ⟨some gW2, stW.locals⟩

/-- Witness for C9 at a concrete input: alice's withdrawal behaves
identically on stW and on its threshold-modified copy stW2. -/
theorem threshold_noninterference_witness :
    (approval_program envW stW txWdW).approved =
        (approval_program envW stW2 txWdW).approved
    ∧ (approval_program envW stW txWdW).inner =
        (approval_program envW stW2 txWdW).inner
    ∧ (approval_program envW stW txWdW).state.locals =
        (approval_program envW stW2 txWdW).state.locals
    ∧ (approval_program envW stW txWdW).state.global = stW.global
    ∧ (approval_program envW stW2 txWdW).state.global = stW2.global :=
  threshold_noninterference envW txWdW stW stW2 gW gW2 rfl rfl rfl rfl rfl
    rfl rfl (by decide)

/-! ## C2: conservation invariant -/

/-- Amount credited to account u by transaction tx when it is approved: the
transferred amount when tx is dispatched to the deposit operation with
sender u, else 0.  (Accounting definition used to state the conservation
claim.) -/
def creditOf (u : AccountId) (tx : Txn) : Nat :=
  if tx.applicationId ≠ 0 ∧ tx.onCompletion = OnComplete.noOp
      ∧ tx.applicationArgs.getD 0 "" = op_usr_deposit ∧ tx.sender = u then
    tx.assetAmount
  else 0

/-- Amount debited from account u by transaction tx when it is approved:
the requested withdrawal amount when tx is dispatched to the withdrawal
operation with sender u, else 0. -/
def debitOf (u : AccountId) (tx : Txn) : Nat :=
  if tx.applicationId ≠ 0 ∧ tx.onCompletion = OnComplete.noOp
      ∧ tx.applicationArgs.getD 0 "" = op_usr_withdrawal ∧ tx.sender = u then
    btoi (tx.applicationArgs.getD 1 "")
  else 0

/-- Run a sequence of transactions through the approval program, threading
the state (a rejected transaction leaves the state unchanged). -/
def run (env : Env) (st : VaultState) : List Txn → VaultState
  | [] => st
  | tx :: txs => run env (approval_program env st tx).state txs

/-- Total amount credited to u by the approved deposits of a sequence. -/
def approvedCredit (env : Env) (u : AccountId) (st : VaultState) :
    List Txn → Nat
  | [] => 0
  | tx :: txs =>
      (if (approval_program env st tx).approved = true then creditOf u tx else 0)
        + approvedCredit env u (approval_program env st tx).state txs

/-- Total amount debited from u by the approved withdrawals of a
sequence. -/
def approvedDebit (env : Env) (u : AccountId) (st : VaultState) :
    List Txn → Nat
  | [] => 0
  | tx :: txs =>
      (if (approval_program env st tx).approved = true then debitOf u tx else 0)
        + approvedDebit env u (approval_program env st tx).state txs

lemma handle_optin_locals (env : Env) (st : VaultState) (tx : Txn)
    (u : AccountId) (hsome : (st.locals u).isSome = true) :
    (handle_optin env st tx).state.locals u = st.locals u := by
  unfold handle_optin contract_opt_in_asset usr_opt_in
  split_ifs with h1 h2 h3 h4
  · rfl
  · rfl
  · simp only [setLocal]
    by_cases hu : u = tx.sender
    · exfalso
      obtain ⟨-, -, -, -, hn, -⟩ := h4
      unfold optedIn at hn
      rw [← hu, hsome] at hn
      cases hn
    · simp [hu]
  · rfl
  · rfl

lemma usr_deposit_effect (env : Env) (st : VaultState) (tx : Txn) :
    usr_deposit env st tx = reject st
    ∨ ((usr_deposit env st tx).approved = true
      ∧ (usr_deposit env st tx).state =
          setLocal st tx.sender
            ⟨localBalance st tx.sender + tx.assetAmount, env.latestTimestamp⟩) := by
  unfold usr_deposit
  split_ifs
  · exact Or.inr ⟨rfl, rfl⟩
  · exact Or.inl rfl

lemma usr_withdrawal_effect (env : Env) (st : VaultState) (tx : Txn) :
    usr_withdrawal env st tx = reject st
    ∨ ((usr_withdrawal env st tx).approved = true
      ∧ btoi (tx.applicationArgs.getD 1 "") ≤ localBalance st tx.sender
      ∧ (usr_withdrawal env st tx).state =
          setLocal st tx.sender
            ⟨localBalance st tx.sender - btoi (tx.applicationArgs.getD 1 ""),
              localTimestamp st tx.sender⟩) := by
  unfold usr_withdrawal
  split_ifs with h
  · exact Or.inr ⟨rfl, h.2.2.2.2.2.2.2.2.2.2.1, rfl⟩
  · exact Or.inl rfl

lemma setLocal_balance_self (st : VaultState) (a : AccountId) (l : LocalState) :
    localBalance (setLocal st a l) a = l.depositBalance := by
  simp [setLocal, localBalance]

lemma setLocal_balance_other (st : VaultState) (a b : AccountId)
    (l : LocalState) (h : b ≠ a) :
    localBalance (setLocal st a l) b = localBalance st b := by
  simp [setLocal, localBalance, h]

lemma setLocal_isSome_self (st : VaultState) (a : AccountId) (l : LocalState) :
    ((setLocal st a l).locals a).isSome = true := by
  simp [setLocal]

lemma setLocal_isSome_other (st : VaultState) (a b : AccountId)
    (l : LocalState) (h : b ≠ a) :
    ((setLocal st a l).locals b).isSome = (st.locals b).isSome := by
  simp [setLocal, h]

lemma conservation_step (env : Env) (st : VaultState) (tx : Txn)
    (u : AccountId) (hsome : (st.locals u).isSome = true) :
    ((approval_program env st tx).state.locals u).isSome = true
    ∧ (if (approval_program env st tx).approved = true then debitOf u tx else 0)
        ≤ localBalance st u
          + (if (approval_program env st tx).approved = true then creditOf u tx
            else 0)
    ∧ localBalance (approval_program env st tx).state u
        = localBalance st u
          + (if (approval_program env st tx).approved = true then creditOf u tx
            else 0)
          - (if (approval_program env st tx).approved = true then debitOf u tx
            else 0) := by
  by_cases hid : tx.applicationId = 0
  · have hc : creditOf u tx = 0 := by
      unfold creditOf
      rw [if_neg]
      intro hcon
      exact hcon.1 hid
    have hd : debitOf u tx = 0 := by
      unfold debitOf
      rw [if_neg]
      intro hcon
      exact hcon.1 hid
    unfold approval_program
    rw [if_pos hid]
    unfold handle_creation
    rw [hc, hd]
    simp only [ite_self]
    split_ifs <;> exact ⟨hsome, by simp, by simp [localBalance, reject]⟩
  · have hid' : tx.applicationId ≠ 0 := hid
    by_cases hoc : tx.onCompletion = OnComplete.noOp
    · rw [approval_program_noop env st tx hid' hoc]
      unfold handle_noop
      by_cases htag1 : tx.applicationArgs.getD 0 "" = op_usr_deposit
      · rw [if_pos htag1]
        have hd : debitOf u tx = 0 := by
          unfold debitOf
          rw [if_neg]
          intro hcon
          rw [htag1] at hcon
          exact absurd hcon.2.2.1 (by decide)
        rw [hd]
        rcases usr_deposit_effect env st tx with h | ⟨happ, hst⟩
        · rw [h]
          simp [reject, hsome]
        · rw [happ, hst]
          simp only [eq_self_iff_true, if_true]
          by_cases hu : tx.sender = u
          · subst hu
            have hcr : creditOf tx.sender tx = tx.assetAmount := by
              unfold creditOf
              rw [if_pos ⟨hid', hoc, htag1, rfl⟩]
            rw [hcr]
            refine ⟨setLocal_isSome_self st tx.sender _, by omega, ?_⟩
            rw [setLocal_balance_self]
            simp
          · have hcr : creditOf u tx = 0 := by
              unfold creditOf
              rw [if_neg]
              intro hcon
              exact hu hcon.2.2.2
            have hu' : u ≠ tx.sender := fun h => hu h.symm
            rw [hcr]
            refine ⟨?_, by omega, ?_⟩
            · rw [setLocal_isSome_other st tx.sender u _ hu']
              exact hsome
            · rw [setLocal_balance_other st tx.sender u _ hu']
              omega
      · rw [if_neg htag1]
        by_cases htag2 : tx.applicationArgs.getD 0 "" = op_usr_withdrawal
        · rw [if_pos htag2]
          have hc : creditOf u tx = 0 := by
            unfold creditOf
            rw [if_neg]
            intro hcon
            exact htag1 hcon.2.2.1
          rw [hc]
          rcases usr_withdrawal_effect env st tx with h | ⟨happ, hle, hst⟩
          · rw [h]
            simp [reject, hsome]
          · rw [happ, hst]
            simp only [eq_self_iff_true, if_true]
            by_cases hu : tx.sender = u
            · subst hu
              have hdr : debitOf tx.sender tx =
                  btoi (tx.applicationArgs.getD 1 "") := by
                unfold debitOf
                rw [if_pos ⟨hid', hoc, htag2, rfl⟩]
              rw [hdr]
              refine ⟨setLocal_isSome_self st tx.sender _, by omega, ?_⟩
              rw [setLocal_balance_self]
              simp
            · have hdr : debitOf u tx = 0 := by
                unfold debitOf
                rw [if_neg]
                intro hcon
                exact hu hcon.2.2.2
              have hu' : u ≠ tx.sender := fun h => hu h.symm
              rw [hdr]
              refine ⟨?_, by omega, ?_⟩
              · rw [setLocal_isSome_other st tx.sender u _ hu']
                exact hsome
              · rw [setLocal_balance_other st tx.sender u _ hu']
                omega
        · rw [if_neg htag2]
          have hc : creditOf u tx = 0 := by
            unfold creditOf
            rw [if_neg]
            intro hcon
            exact htag1 hcon.2.2.1
          have hd : debitOf u tx = 0 := by
            unfold debitOf
            rw [if_neg]
            intro hcon
            exact htag2 hcon.2.2.1
          rw [hc, hd]
          simp [reject, hsome]
    · have hc : creditOf u tx = 0 := by
        unfold creditOf
        rw [if_neg]
        intro hcon
        exact hoc hcon.2.1
      have hd : debitOf u tx = 0 := by
        unfold debitOf
        rw [if_neg]
        intro hcon
        exact hoc hcon.2.1
      unfold approval_program
      rw [if_neg hid, hc, hd]
      simp only [ite_self]
      cases honc : tx.onCompletion with
      | noOp => exact absurd honc hoc
      | optIn =>
          rw [if_pos rfl]
          have hl := handle_optin_locals env st tx u hsome
          have hb : localBalance (handle_optin env st tx).state u =
              localBalance st u := by
            unfold localBalance
            rw [hl]
          rw [hb, hl]
          exact ⟨hsome, by omega, by omega⟩
      | closeOut =>
          rw [if_neg (by decide), if_pos rfl]
          exact ⟨hsome, by omega, by simp [reject]⟩
      | clearState =>
          rw [if_neg (by decide), if_neg (by decide), if_neg (by decide),
            if_neg (by decide), if_neg (by decide)]
          exact ⟨hsome, by omega, by simp [reject]⟩
      | updateApplication =>
          rw [if_neg (by decide), if_neg (by decide), if_pos rfl]
          exact ⟨hsome, by omega, by simp [reject]⟩
      | deleteApplication =>
          rw [if_neg (by decide), if_neg (by decide), if_neg (by decide),
            if_pos rfl]
          exact ⟨hsome, by omega, by simp [reject]⟩

lemma conservation_run (env : Env) (u : AccountId) :
    ∀ (txs : List Txn) (st : VaultState), (st.locals u).isSome = true →
      ((run env st txs).locals u).isSome = true
      ∧ approvedDebit env u st txs
          ≤ localBalance st u + approvedCredit env u st txs
      ∧ localBalance (run env st txs) u
          = localBalance st u + approvedCredit env u st txs
            - approvedDebit env u st txs := by
  intro txs
  induction txs with
  | nil =>
      intro st h
      simp [run, approvedCredit, approvedDebit, h]
  | cons tx txs ih =>
      intro st h
      obtain ⟨h1, h2, h3⟩ := conservation_step env st tx u h
      obtain ⟨ih1, ih2, ih3⟩ := ih (approval_program env st tx).state h1
      refine ⟨ih1, ?_, ?_⟩ <;>
        simp only [run, approvedCredit, approvedDebit] <;>
        omega

/-- C2: starting from the state where an account has just opted in
(balance 0, timestamp 0), after any sequence of transactions the
account's depositBalance equals the sum of its approved deposit amounts
minus the sum of its approved withdrawal amounts, and the total debited
never exceeds the total credited (the subtraction never underflows). -/
theorem conservation_invariant (env : Env) (u : AccountId) (st : VaultState)
    (txs : List Txn) (h0 : st.locals u = some ⟨0, 0⟩) :
    approvedDebit env u st txs ≤ approvedCredit env u st txs
    ∧ localBalance (run env st txs) u
        = approvedCredit env u st txs - approvedDebit env u st txs := by
  have hsome : (st.locals u).isSome = true := by rw [h0]; rfl
  have hbal : localBalance st u = 0 := by
    unfold localBalance
    rw [h0]
  obtain ⟨-, h2, h3⟩ := conservation_run env u txs st hsome
  rw [hbal] at h2 h3
  omega

/-- A state where alice has just opted in. -/
def stZeroW : VaultState :=
  ⟨some gW, fun a => if a = "alice" then some ⟨0, 0⟩ else none⟩

/-- A deposit of 200 of asset 7 by alice starting from balance 0. -/
def txDep0W : Txn :=
  ⟨1, OnComplete.noOp, TxnType.assetTransfer, "alice", 1000, 1, 0,
    "ZERO", "ZERO", "VAULT", 7, 200, [], ["usr_deposit"]⟩

/-- Witness for C2 at a concrete input: alice deposits 200 then withdraws
100; total debits stay below total credits and the final balance is their
difference. -/
theorem conservation_invariant_witness :
    approvedDebit envW "alice" stZeroW [txDep0W, txWdW]
        ≤ approvedCredit envW "alice" stZeroW [txDep0W, txWdW]
    ∧ localBalance (run envW stZeroW [txDep0W, txWdW]) "alice"
        = approvedCredit envW "alice" stZeroW [txDep0W, txWdW]
          - approvedDebit envW "alice" stZeroW [txDep0W, txWdW] :=
  conservation_invariant envW "alice" stZeroW [txDep0W, txWdW] (by decide)

/-! ## C10: the clear-state program approves everything -/

/-- C10: the clear-state program returns 1 (approve) for every input
transaction, so clear-state carries no precondition from this core: any
opted-in account, whatever its depositBalance, can take the clear-state
path. -/
theorem clear_state_approves_all (tx : Txn) :
    clear_state_program tx = true :=
  rfl

end Vault
